import Mathlib

/-!
Verification model of the graval FTP server library.

Go strings are modelled as `List Char`; Go's `map`-based command table as an
association list; the driver and the network as an oracle record supplying
the results each call would return.  Control-channel writes are assumed to
succeed (a failing write only shortens traces and is outside every claim).
-/

set_option maxHeartbeats 1000000

/-- Model of Go `strings.TrimLeft(l, cut)`: drop leading characters in `cut`. -/
def trimLeftChars (cut : List Char) : List Char → List Char
  | [] => []
  | c :: cs => if c ∈ cut then trimLeftChars cut cs else c :: cs

/-- Drop trailing characters in `cut` (right half of Go `strings.Trim`). -/
def trimRightChars (cut : List Char) (l : List Char) : List Char :=
  (trimLeftChars cut l.reverse).reverse

/-- Model of Go `strings.Trim(l, cut)`: trim both ends. -/
def trimChars (cut : List Char) (l : List Char) : List Char :=
  trimRightChars cut (trimLeftChars cut l)

/-- ASCII whitespace characters recognised by Go `strings.TrimSpace`
(we model the ASCII subset of `unicode.IsSpace`). -/
def wsChars : List Char := [' ', '\t', '\n', Char.ofNat 11, Char.ofNat 12, '\r']

/-- Model of Go `strings.TrimSpace`. -/
def trimSpace (l : List Char) : List Char :=
  trimChars wsChars l

/-- Model of Go `strings.SplitN(l, sep, 2)` for a one-character separator:
the part before the first `sep`, and `some` rest after it (or `none`). -/
def splitFirst (sep : Char) : List Char → List Char × Option (List Char)
  | [] => ([], none)
  | c :: cs =>
    if c = sep then ([], some cs)
    else
      let r := splitFirst sep cs
      (c :: r.1, r.2)

/-- Model of Go `strings.Split(l, sep)` for a one-character separator. -/
def splitOnChar (sep : Char) : List Char → List (List Char)
  | [] => [[]]
  | c :: cs =>
    if c = sep then [] :: splitOnChar sep cs
    else
      match splitOnChar sep cs with
      | [] => [[c]]
      | p :: ps => (c :: p) :: ps

/-- Join path components with `/` (no leading or trailing separator). -/
def joinComps : List (List Char) → List Char
  | [] => []
  | [c] => c
  | c :: cs => c ++ '/' :: joinComps cs

/-- The component-stack step of Go `path/filepath.Clean` (Unix separators).
`rooted` is whether the path begins with `/`.  Empty and `.` components are
dropped; `..` pops the previous component when one is available, is dropped
at the root when `rooted`, and is kept when not `rooted` and nothing can be
popped (Go's `dotdot` marker: the stack is a run of leading `..` followed by
normal components, so `getLast?` decides whether popping is possible). -/
def cleanComps (rooted : Bool) : List (List Char) → List (List Char) → List (List Char)
  | acc, [] => acc
  | acc, c :: cs =>
    if c = [] ∨ c = ['.'] then cleanComps rooted acc cs
    else if c = ['.', '.'] then
      match acc.getLast? with
      | some x =>
        if x = ['.', '.'] then
          (if rooted then cleanComps rooted acc cs else cleanComps rooted (acc ++ [c]) cs)
        else cleanComps rooted acc.dropLast cs
      | none =>
        if rooted then cleanComps rooted acc cs else cleanComps rooted (acc ++ [c]) cs
    else cleanComps rooted (acc ++ [c]) cs

/-- Model of Go `path/filepath.Clean` on Unix: split on `/`, process the
components, and re-join ( `""` cleans to `"."`, a rooted empty stack to `"/"`,
a non-rooted empty stack to `"."`). -/
def cleanPath (l : List Char) : List Char :=
  if l = [] then ['.']
  else if l.head? = some '/' then
    '/' :: joinComps (cleanComps true [] (splitOnChar '/' l))
  else
    match cleanComps false [] (splitOnChar '/' l) with
    | [] => ['.']
    | c :: cs => joinComps (c :: cs)

/-- Model of Go `strings.Replace(l, "//", "/", -1)`: replace every
non-overlapping occurrence of `//` by `/`, scanning left to right. -/
def replaceDoubleSlash : List Char → List Char
  | [] => []
  | [c] => [c]
  | a :: b :: rest =>
    if a = '/' ∧ b = '/' then '/' :: replaceDoubleSlash rest
    else a :: replaceDoubleSlash (b :: rest)

/-- Model of `ftpConn.buildPath` (src/ftpconn.go:221): absolute inputs are
cleaned directly, non-empty relative inputs are joined to the name prefix,
an empty input cleans the prefix alone; then `//` is collapsed. -/
def buildPath (namePfx filename : List Char) : List Char :=
  let fullPath :=
    if filename.head? = some '/' then cleanPath filename
    else if filename ≠ [] then cleanPath (namePfx ++ '/' :: filename)
    else cleanPath namePfx
  replaceDoubleSlash fullPath

/-- Decimal digits to a number; `none` when empty or any non-digit occurs. -/
def digitsToNat (l : List Char) : Option Nat :=
  if l = [] then none
  else if l.all Char.isDigit then
    some (l.foldl (fun a c => a * 10 + (c.toNat - 48)) 0)
  else none

/-- Model of Go `strconv.Atoi` (optional sign then digits; the int64
overflow error is elided, no claim exercises it). -/
def atoi (l : List Char) : Option Int :=
  match l with
  | '+' :: rest => (digitsToNat rest).map Int.ofNat
  | '-' :: rest => (digitsToNat rest).map (fun n => -(n : Int))
  | _ => (digitsToNat l).map Int.ofNat

/-- Model of Go `strconv.ParseUint(l, 10, 16)`: unsigned digits, value must
fit in 16 bits. -/
def parseUint16 (l : List Char) : Option Nat :=
  match digitsToNat l with
  | none => none
  | some n => if n < 65536 then some n else none

/-- Model of Go `strings.ToUpper` on ASCII. -/
def toUpperList (l : List Char) : List Char :=
  l.map Char.toUpper

/-- Model of `regexp.MatchString` against the literal pattern used for LIST
and NLST flags (src/commands.go:60): a dash followed by one or more of
`a`, `l`, `t`. -/
def listFlagsMatch (p : List Char) : Bool :=
  match p with
  | '-' :: rest => !rest.isEmpty && rest.all (fun c => c = 'a' || c = 'l' || c = 't')
  | _ => false

/-- Model of `ftpConn.parseLine` (src/ftpconn.go:164): trim CR/LF from both
ends, split on the first space, whitespace-trim the parameter.  Note: the
command token is returned verbatim (no case folding appears in the source). -/
def parseLine (line : List Char) : List Char × List Char :=
  let t := trimChars ['\r', '\n'] line
  match splitFirst ' ' t with
  | (cmd, none) => (cmd, [])
  | (cmd, some rest) => (cmd, trimSpace rest)

/-- Model of `randIntn`: Go `rand.Intn(n)` panics when `n <= 0` (`none`);
otherwise the oracle value `r` is reduced into `[0, n)`. -/
def randIntn (n r : Nat) : Option Nat :=
  if n = 0 then none else some (r % n)

/-- Model of `randomPort` (data-socket file): for `[0,0]` return 0, else
`uint16(int(min) + rand.Intn(int(max-min-1)))` where the subtraction is
uint16 arithmetic (wraps modulo 2^16) and the final cast wraps again.
`min, max < 65536`; `r` is the oracle for the random draw. -/
def randomPort (min max r : Nat) : Option Nat :=
  if min = 0 ∧ max = 0 then some 0
  else (randIntn ((max + 2 * 65536 - min - 1) % 65536) r).map
    (fun v => (min + v) % 65536)

/-! ### Properties of the path model -/

theorem splitOnChar_cons_self (sep : Char) (cs : List Char) :
    splitOnChar sep (sep :: cs) = [] :: splitOnChar sep cs := by
  simp [splitOnChar]

theorem splitOnChar_ne_nil (sep : Char) (l : List Char) :
    splitOnChar sep l ≠ [] := by
  cases l with
  | nil => simp [splitOnChar]
  | cons a as =>
    by_cases h : a = sep
    · subst h; rw [splitOnChar_cons_self]; simp
    · simp only [splitOnChar, if_neg h]
      cases splitOnChar sep as <;> simp

theorem splitOnChar_cons_ne (sep a : Char) (cs : List Char) (h : a ≠ sep)
    (p : List Char) (ps : List (List Char)) (hsp : splitOnChar sep cs = p :: ps) :
    splitOnChar sep (a :: cs) = (a :: p) :: ps := by
  simp only [splitOnChar, if_neg h, hsp]

theorem splitOnChar_sep_not_mem (sep : Char) (l : List Char) :
    ∀ c ∈ splitOnChar sep l, sep ∉ c := by
  induction l with
  | nil => intro c hc; simp [splitOnChar] at hc; subst hc; simp
  | cons a as ih =>
    intro c hc
    by_cases h : a = sep
    · subst h
      rw [splitOnChar_cons_self] at hc
      rcases List.mem_cons.mp hc with hc | hc
      · subst hc; simp
      · exact ih c hc
    · cases hsp : splitOnChar sep as with
      | nil => exact absurd hsp (splitOnChar_ne_nil sep as)
      | cons p ps =>
        rw [splitOnChar_cons_ne sep a as h p ps hsp] at hc
        rcases List.mem_cons.mp hc with hc | hc
        · subst hc
          intro hmem
          rcases List.mem_cons.mp hmem with h1 | h1
          · exact h h1.symm
          · exact ih p (hsp ▸ List.mem_cons_self p ps) h1
        · exact ih c (hsp ▸ List.mem_cons_of_mem p hc)

theorem splitOnChar_of_not_mem (sep : Char) (c : List Char) (h : sep ∉ c) :
    splitOnChar sep c = [c] := by
  induction c with
  | nil => rfl
  | cons a as ih =>
    have ha : a ≠ sep := fun he => h (he ▸ List.mem_cons_self a as)
    have has : sep ∉ as := fun hm => h (List.mem_cons_of_mem a hm)
    exact splitOnChar_cons_ne sep a as ha as [] (ih has)

theorem splitOnChar_append (sep : Char) (c l : List Char) (h : sep ∉ c) :
    splitOnChar sep (c ++ sep :: l) = c :: splitOnChar sep l := by
  induction c with
  | nil => simpa using splitOnChar_cons_self sep l
  | cons a as ih =>
    have ha : a ≠ sep := fun he => h (he ▸ List.mem_cons_self a as)
    have has : sep ∉ as := fun hm => h (List.mem_cons_of_mem a hm)
    cases hsp : splitOnChar sep (as ++ sep :: l) with
    | nil => exact absurd hsp (splitOnChar_ne_nil sep _)
    | cons p ps =>
      have := ih has
      rw [hsp] at this
      cases this
      exact splitOnChar_cons_ne sep a _ ha as (splitOnChar sep l) hsp

theorem splitOnChar_joinComps (comps : List (List Char)) (hne : comps ≠ [])
    (h : ∀ c ∈ comps, '/' ∉ c) :
    splitOnChar '/' (joinComps comps) = comps := by
  induction comps with
  | nil => exact absurd rfl hne
  | cons c cs ih =>
    cases cs with
    | nil =>
      simp only [joinComps]
      exact splitOnChar_of_not_mem '/' c (h c (List.mem_cons_self c []))
    | cons c2 cs2 =>
      have hjc : joinComps (c :: c2 :: cs2) = c ++ '/' :: joinComps (c2 :: cs2) := rfl
      rw [hjc, splitOnChar_append '/' c _ (h c (List.mem_cons_self c _)),
        ih (by simp) (fun x hx => h x (List.mem_cons_of_mem c hx))]

/-- A well-formed path component: non-empty, not a dot component, free of the
separator.  `cleanComps true` produces only such components. -/
def goodComp (c : List Char) : Prop :=
  c ≠ [] ∧ c ≠ ['.'] ∧ c ≠ ['.', '.'] ∧ '/' ∉ c

theorem cleanComps_rooted_good (cs : List (List Char)) :
    ∀ acc : List (List Char), (∀ c ∈ cs, '/' ∉ c) → (∀ c ∈ acc, goodComp c) →
      ∀ c ∈ cleanComps true acc cs, goodComp c := by
  induction cs with
  | nil => intro acc _ hacc c hc; exact hacc c hc
  | cons c cs ih =>
    intro acc hcs hacc x hx
    have hcs' : ∀ m ∈ cs, '/' ∉ m := fun m hm => hcs m (List.mem_cons_of_mem c hm)
    by_cases h1 : c = [] ∨ c = ['.']
    · rw [show cleanComps true acc (c :: cs) = cleanComps true acc cs by
        simp [cleanComps, h1]] at hx
      exact ih acc hcs' hacc x hx
    · by_cases h2 : c = ['.', '.']
      · cases hgl : acc.getLast? with
        | some y =>
          by_cases h3 : y = ['.', '.']
          · rw [show cleanComps true acc (c :: cs) = cleanComps true acc cs by
              simp [cleanComps, h1, h2, hgl, h3]] at hx
            exact ih acc hcs' hacc x hx
          · rw [show cleanComps true acc (c :: cs) = cleanComps true acc.dropLast cs by
              simp [cleanComps, h1, h2, hgl, h3]] at hx
            exact ih acc.dropLast hcs'
              (fun m hm => hacc m (List.mem_of_mem_dropLast hm)) x hx
        | none =>
          rw [show cleanComps true acc (c :: cs) = cleanComps true acc cs by
            simp [cleanComps, h1, h2, hgl]] at hx
          exact ih acc hcs' hacc x hx
      · rw [show cleanComps true acc (c :: cs) = cleanComps true (acc ++ [c]) cs by
          simp [cleanComps, h1, h2]] at hx
        refine ih (acc ++ [c]) hcs' ?_ x hx
        intro m hm
        rcases List.mem_append.mp hm with hm | hm
        · exact hacc m hm
        · have hmc : m = c := by simpa using hm
          rw [hmc]
          exact ⟨fun he => h1 (Or.inl he), fun he => h1 (Or.inr he), h2,
            hcs c (List.mem_cons_self c cs)⟩

theorem cleanComps_of_good (cs : List (List Char)) :
    ∀ acc : List (List Char), (∀ c ∈ cs, goodComp c) →
      cleanComps true acc cs = acc ++ cs := by
  induction cs with
  | nil => intro acc _; simp [cleanComps]
  | cons c cs ih =>
    intro acc h
    have hc : goodComp c := h c (List.mem_cons_self c cs)
    have h1 : ¬(c = [] ∨ c = ['.']) := fun hor => hor.elim hc.1 hc.2.1
    have step : cleanComps true acc (c :: cs) = cleanComps true (acc ++ [c]) cs := by
      simp [cleanComps, h1, hc.2.2.1]
    rw [step, ih (acc ++ [c]) (fun m hm => h m (List.mem_cons_of_mem c hm))]
    simp

theorem replaceDoubleSlash_cons_cons (a b : Char) (t : List Char) (h : ¬(a = '/' ∧ b = '/')) :
    replaceDoubleSlash (a :: b :: t) = a :: replaceDoubleSlash (b :: t) := by
  simp only [replaceDoubleSlash]
  rw [if_neg h]

theorem replaceDoubleSlash_append (c : List Char) (h : '/' ∉ c) (rest : List Char) :
    replaceDoubleSlash (c ++ rest) = c ++ replaceDoubleSlash rest := by
  induction c with
  | nil => rfl
  | cons a as ih =>
    have ha : a ≠ '/' := fun he => h (he ▸ List.mem_cons_self a as)
    have has : '/' ∉ as := fun hm => h (List.mem_cons_of_mem a hm)
    cases htail : as ++ rest with
    | nil =>
      rcases List.append_eq_nil.mp htail with ⟨h1, h2⟩
      subst h1; subst h2
      rfl
    | cons b t =>
      rw [List.cons_append, htail,
        replaceDoubleSlash_cons_cons a b t (fun hh => ha hh.1), ← htail, ih has,
        List.cons_append]

theorem replaceDoubleSlash_rooted (comps : List (List Char))
    (h : ∀ c ∈ comps, c ≠ [] ∧ '/' ∉ c) :
    replaceDoubleSlash ('/' :: joinComps comps) = '/' :: joinComps comps := by
  induction comps with
  | nil => rfl
  | cons c cs ih =>
    have hc := h c (List.mem_cons_self c cs)
    obtain ⟨x, c2, rfl⟩ : ∃ x c2, c = x :: c2 := by
      cases c with
      | nil => exact absurd rfl hc.1
      | cons x c2 => exact ⟨x, c2, rfl⟩
    have hxs : x ≠ '/' := fun he => hc.2 (he ▸ List.mem_cons_self x c2)
    cases cs with
    | nil =>
      show replaceDoubleSlash ('/' :: x :: c2) = '/' :: x :: c2
      rw [replaceDoubleSlash_cons_cons '/' x c2 (fun hh => hxs hh.2)]
      have := replaceDoubleSlash_append (x :: c2) hc.2 []
      simpa [replaceDoubleSlash] using this
    | cons c3 cs3 =>
      show replaceDoubleSlash ('/' :: ((x :: c2) ++ '/' :: joinComps (c3 :: cs3))) =
        '/' :: ((x :: c2) ++ '/' :: joinComps (c3 :: cs3))
      rw [List.cons_append,
        replaceDoubleSlash_cons_cons '/' x (c2 ++ '/' :: joinComps (c3 :: cs3))
          (fun hh => hxs hh.2),
        show x :: (c2 ++ '/' :: joinComps (c3 :: cs3)) =
          (x :: c2) ++ '/' :: joinComps (c3 :: cs3) from rfl,
        replaceDoubleSlash_append (x :: c2) hc.2,
        ih (fun m hm => h m (List.mem_cons_of_mem _ hm))]

theorem cleanPath_rooted (l : List Char) (h : l.head? = some '/') :
    cleanPath l = '/' :: joinComps (cleanComps true [] (splitOnChar '/' l)) := by
  have hne : l ≠ [] := by cases l <;> simp_all
  simp [cleanPath, hne, h]

theorem cleanPath_comps_good (l : List Char) :
    ∀ c ∈ cleanComps true [] (splitOnChar '/' l), goodComp c :=
  cleanComps_rooted_good (splitOnChar '/' l) [] (splitOnChar_sep_not_mem '/' l)
    (by simp)

theorem cleanPath_head (l : List Char) (h : l.head? = some '/') :
    (cleanPath l).head? = some '/' := by
  rw [cleanPath_rooted l h]; rfl

theorem cleanPath_rooted_no_dots (l : List Char) (h : l.head? = some '/') :
    ∀ c ∈ splitOnChar '/' (cleanPath l), c ≠ ['.'] ∧ c ≠ ['.', '.'] := by
  have hg := cleanPath_comps_good l
  rw [cleanPath_rooted l h]
  cases hc : cleanComps true [] (splitOnChar '/' l) with
  | nil =>
    intro c hcm
    have hsp : splitOnChar '/' ('/' :: joinComps ([] : List (List Char))) =
        [[], []] := by decide
    rw [hsp] at hcm
    rcases List.mem_cons.mp hcm with h1 | h1
    · subst h1; exact ⟨by simp, by simp⟩
    · have : c = [] := by simpa using h1
      subst this; exact ⟨by simp, by simp⟩
  | cons c0 cs0 =>
    intro c hcm
    have hnos : ∀ m ∈ c0 :: cs0, '/' ∉ m := fun m hm => (hg m (hc ▸ hm)).2.2.2
    have hsp : splitOnChar '/' ('/' :: joinComps (c0 :: cs0)) = [] :: c0 :: cs0 := by
      rw [splitOnChar_cons_self, splitOnChar_joinComps (c0 :: cs0) (by simp) hnos]
    rw [hsp] at hcm
    rcases List.mem_cons.mp hcm with h1 | h1
    · subst h1; exact ⟨by simp, by simp⟩
    · exact ⟨(hg c (hc ▸ h1)).2.1, (hg c (hc ▸ h1)).2.2.1⟩

theorem cleanPath_idem (l : List Char) (h : l.head? = some '/') :
    cleanPath (cleanPath l) = cleanPath l := by
  have hg := cleanPath_comps_good l
  rw [cleanPath_rooted l h]
  cases hc : cleanComps true [] (splitOnChar '/' l) with
  | nil =>
    show cleanPath ['/'] = ['/']
    decide
  | cons c0 cs0 =>
    have hr2 : ('/' :: joinComps (c0 :: cs0)).head? = some '/' := rfl
    have hnos : ∀ m ∈ c0 :: cs0, '/' ∉ m := fun m hm => (hg m (hc ▸ hm)).2.2.2
    have hgood : ∀ m ∈ c0 :: cs0, goodComp m := fun m hm => hg m (hc ▸ hm)
    rw [cleanPath_rooted _ hr2]
    congr 1
    rw [splitOnChar_cons_self, splitOnChar_joinComps (c0 :: cs0) (by simp) hnos]
    have hskip : cleanComps true [] ([] :: c0 :: cs0) =
        cleanComps true [] (c0 :: cs0) := by
      simp [cleanComps]
    rw [hskip, cleanComps_of_good (c0 :: cs0) [] hgood]
    simp

theorem replaceDoubleSlash_cleanPath (l : List Char) (h : l.head? = some '/') :
    replaceDoubleSlash (cleanPath l) = cleanPath l := by
  have hg := cleanPath_comps_good l
  rw [cleanPath_rooted l h]
  exact replaceDoubleSlash_rooted _ (fun c hm => ⟨(hg c hm).1, (hg c hm).2.2.2⟩)

theorem buildPath_of_rooted (q r : List Char) (hr : r.head? = some '/') :
    buildPath q r = replaceDoubleSlash (cleanPath r) := by
  simp [buildPath, hr]

theorem buildPath_cases (p s : List Char) (hp : p.head? = some '/') :
    ∃ x, x.head? = some '/' ∧ buildPath p s = replaceDoubleSlash (cleanPath x) := by
  by_cases h1 : s.head? = some '/'
  · exact ⟨s, h1, by simp [buildPath, h1]⟩
  · by_cases h2 : s = []
    · exact ⟨p, hp, by simp [buildPath, h1, h2]⟩
    · refine ⟨p ++ '/' :: s, ?_, by simp [buildPath, h1, h2]⟩
      cases p with
      | nil => simp at hp
      | cons a p' => simpa using hp

/-- Claim C2: for every client-supplied string `s` and every absolute name prefix
`p`, `buildPath p s` begins with `/`, contains no `.` or `..` components, is
idempotent (rebuilding the result against prefix `/` returns it unchanged),
and with prefix `/home` the input `/../../../../etc/passwd` canonicalises to
`/etc/passwd` (`..` saturates at the root). -/
theorem buildPath_canonical (p s : List Char) (hp : p.head? = some '/') :
    (buildPath p s).head? = some '/' ∧
    (∀ c ∈ splitOnChar '/' (buildPath p s), c ≠ ['.'] ∧ c ≠ ['.', '.']) ∧
    buildPath ['/'] (buildPath p s) = buildPath p s ∧
    buildPath "/home".data "/../../../../etc/passwd".data = "/etc/passwd".data := by
  obtain ⟨x, hx, hbp⟩ := buildPath_cases p s hp
  have hbp2 : buildPath p s = cleanPath x := by
    rw [hbp, replaceDoubleSlash_cleanPath x hx]
  have hhead : (buildPath p s).head? = some '/' := by
    rw [hbp2]; exact cleanPath_head x hx
  refine ⟨hhead, ?_, ?_, by decide⟩
  · rw [hbp2]; exact cleanPath_rooted_no_dots x hx
  · rw [buildPath_of_rooted ['/'] (buildPath p s) hhead, hbp2,
      cleanPath_idem x hx, replaceDoubleSlash_cleanPath x hx]

/-- Witness for C2 at prefix `/home` and input `docs/../a//b`. -/
theorem buildPath_canonical_witness :
    ("/home".data.head? = some '/') ∧
    ((buildPath "/home".data "docs/../a//b".data).head? = some '/' ∧
     (∀ c ∈ splitOnChar '/' (buildPath "/home".data "docs/../a//b".data),
        c ≠ ['.'] ∧ c ≠ ['.', '.']) ∧
     buildPath ['/'] (buildPath "/home".data "docs/../a//b".data) =
       buildPath "/home".data "docs/../a//b".data ∧
     buildPath "/home".data "/../../../../etc/passwd".data = "/etc/passwd".data) :=
  ⟨by decide, buildPath_canonical "/home".data "docs/../a//b".data (by decide)⟩

/-! ### Session state machine

The mutable per-connection fields of `ftpConn` (src/ftpconn.go:19), the
driver/network oracle, and per-command handlers producing event traces. -/

/-- Observable events of one command dispatch, in execution order.  A `reply`
is one `writeMessage`/`writeLines` on the control channel (identified by its
code); `drv` is a driver call with its arguments; `closeConn`/`closeData`
close the control/data socket; `copyData` is the `io.Copy` over the data
socket; `sleepE` the 10 ms compatibility sleep; `closeReader` closes the
driver-supplied file reader. -/
inductive Event where
  | reply (code : Nat)
  | replyPasv (h1 h2 h3 h4 : List Char) (p1 p2 : Nat)
  | drv (op : List Char) (args : List (List Char))
  | closeConn
  | closeData
  | copyData
  | sleepE
  | closeReader
  deriving DecidableEq

/-- How a handler finishes: normally, with a Go `error` return, or with a
runtime panic (recovered at the session boundary by `Serve`, which then
closes the whole connection). -/
inductive Outcome where
  | ok
  | err
  | panicked
  deriving DecidableEq

/-- The five mutable session-state fields of `ftpConn`: `namePfx` models
`namePrefix`, `hasDataConn` models `dataConn != nil`. -/
structure ConnState where
  namePfx : List Char
  reqUser : List Char
  user : List Char
  renameFrom : List Char
  hasDataConn : Bool
  deriving DecidableEq

/-- Oracle for everything outside the connection engine: the driver's
results (`none` models a returned Go error), network outcomes, and the
immutable per-connection configuration. -/
structure Env where
  remoteIp : List Char
  pasvAdvertisedIp : List Char
  passiveHost : List Char
  passivePort : Option Nat
  activeDialOk : Bool
  copyOk : Bool
  authenticate : List Char → List Char → List Char → Option Bool
  changeDir : List Char → Option Bool
  deleteFile : List Char → Option Bool
  deleteDir : List Char → Option Bool
  makeDir : List Char → Option Bool
  rename : List Char → List Char → Option Bool
  bytes : List Char → Option Int
  modifiedTime : List Char → Option Unit
  dirContents : List Char → Option Unit
  getFile : List Char → Option Unit
  putFile : List Char → Option Bool

/-- The result of running one handler. -/
abbrev ExecResult := ConnState × List Event × Outcome

/-- Close the current data socket if one is configured (first half of
`newPassiveSocket`/`newActiveSocket`, src/ftpconn.go:276,291). -/
def closeExistingData (st : ConnState) : ConnState × List Event :=
  if st.hasDataConn then ({ st with hasDataConn := false }, [Event.closeData])
  else (st, [])

/-- Model of `ftpConn.newActiveSocket`: close any existing data socket, then
dial; on success the new socket is attached. -/
def newActiveSocketM (env : Env) (st : ConnState) : ConnState × List Event × Bool :=
  let r := closeExistingData st
  if env.activeDialOk then ({ r.1 with hasDataConn := true }, r.2, true)
  else (r.1, r.2, false)

/-- Model of `ftpConn.newPassiveSocket`: close any existing data socket, then
construct the passive listener; `some port` on success. -/
def newPassiveSocketM (env : Env) (st : ConnState) :
    ConnState × List Event × Option Nat :=
  let r := closeExistingData st
  match env.passivePort with
  | none => (r.1, r.2, none)
  | some p => ({ r.1 with hasDataConn := true }, r.2, some p)

/-- Model of `ftpConn.sendOutOfBandReader` (src/ftpconn.go:248): the data
socket's `Close` is registered with `defer`, so it runs when the function
returns — after the 226 (or 550) reply.  With no data socket attached,
`io.Copy` dereferences a nil interface and panics. -/
def sendOutOfBandReader (env : Env) (st : ConnState) : ExecResult :=
  if st.hasDataConn then
    if env.copyOk then
      (st, [Event.copyData, Event.reply 226, Event.sleepE, Event.closeData],
        Outcome.ok)
    else
      (st, [Event.copyData, Event.reply 550, Event.closeData], Outcome.err)
  else (st, [], Outcome.panicked)

/-- Model of `commandAllo.Execute`. -/
def commandAlloExecute (_env : Env) (st : ConnState) (_param : List Char) :
    ExecResult :=
  (st, [Event.reply 202], Outcome.ok)

/-- Model of `commandCwd.Execute`. -/
def commandCwdExecute (env : Env) (st : ConnState) (param : List Char) :
    ExecResult :=
  let path := buildPath st.namePfx param
  match env.changeDir path with
  | none => (st, [Event.drv "ChangeDir".data [path]], Outcome.err)
  | some true =>
    ({ st with namePfx := path },
      [Event.drv "ChangeDir".data [path], Event.reply 250], Outcome.ok)
  | some false =>
    (st, [Event.drv "ChangeDir".data [path], Event.reply 550], Outcome.ok)

/-- Model of `commandCdup.Execute`: delegates to CWD with `..`. -/
def commandCdupExecute (env : Env) (st : ConnState) (_param : List Char) :
    ExecResult :=
  commandCwdExecute env st "..".data

/-- Model of `commandDele.Execute`. -/
def commandDeleExecute (env : Env) (st : ConnState) (param : List Char) :
    ExecResult :=
  let path := buildPath st.namePfx param
  match env.deleteFile path with
  | none => (st, [Event.drv "DeleteFile".data [path]], Outcome.err)
  | some true =>
    (st, [Event.drv "DeleteFile".data [path], Event.reply 250], Outcome.ok)
  | some false =>
    (st, [Event.drv "DeleteFile".data [path], Event.reply 550], Outcome.ok)

/-- Model of `commandEprt.Execute` (src/commands.go:170): the delimiter is
the first character of the parameter; `parts[1]` always exists (the
delimiter occurs at position 0), but `parts[2]` and `parts[3]` are indexed
without a length check and panic when missing.  The protocol-family check
happens only after the port parses. -/
def commandEprtExecute (env : Env) (st : ConnState) (param : List Char) :
    ExecResult :=
  match param with
  | [] => (st, [], Outcome.panicked)
  | d :: _ =>
    let parts := splitOnChar d param
    match atoi (parts.getD 1 []) with
    | none => (st, [], Outcome.err)
    | some af =>
      if parts.length < 3 then (st, [], Outcome.panicked)
      else if parts.length < 4 then (st, [], Outcome.panicked)
      else
        match parseUint16 (parts.getD 3 []) with
        | none => (st, [], Outcome.err)
        | some _ =>
          if af ≠ 1 ∧ af ≠ 2 then (st, [Event.reply 522], Outcome.ok)
          else
            let r := newActiveSocketM env st
            if r.2.2 then (r.1, r.2.1 ++ [Event.reply 200], Outcome.ok)
            else (r.1, r.2.1 ++ [Event.reply 425], Outcome.err)

/-- Model of `commandEpsv.Execute`. -/
def commandEpsvExecute (env : Env) (st : ConnState) (_param : List Char) :
    ExecResult :=
  let r := newPassiveSocketM env st
  match r.2.2 with
  | none => (r.1, r.2.1 ++ [Event.reply 425], Outcome.err)
  | some _ => (r.1, r.2.1 ++ [Event.reply 229], Outcome.ok)

/-- Model of `commandFeat.Execute` (one `writeLines` with code 211). -/
def commandFeatExecute (_env : Env) (st : ConnState) (_param : List Char) :
    ExecResult :=
  (st, [Event.reply 211], Outcome.ok)

/-- Model of `commandList.Execute`: 150 first, flag-style parameters are
dropped, then the listing is sent out of band. -/
def commandListExecute (env : Env) (st : ConnState) (param : List Char) :
    ExecResult :=
  let param2 := if listFlagsMatch param then [] else param
  let path := buildPath st.namePfx param2
  match env.dirContents path with
  | none =>
    (st, [Event.reply 150, Event.drv "DirContents".data [path]], Outcome.err)
  | some _ =>
    let r := sendOutOfBandReader env st
    (r.1, Event.reply 150 :: Event.drv "DirContents".data [path] :: r.2.1, r.2.2)

/-- Model of `commandNlst.Execute` (same trace shape as LIST). -/
def commandNlstExecute (env : Env) (st : ConnState) (param : List Char) :
    ExecResult :=
  let param2 := if listFlagsMatch param then [] else param
  let path := buildPath st.namePfx param2
  match env.dirContents path with
  | none =>
    (st, [Event.reply 150, Event.drv "DirContents".data [path]], Outcome.err)
  | some _ =>
    let r := sendOutOfBandReader env st
    (r.1, Event.reply 150 :: Event.drv "DirContents".data [path] :: r.2.1, r.2.2)

/-- Model of `commandMdtm.Execute`. -/
def commandMdtmExecute (env : Env) (st : ConnState) (param : List Char) :
    ExecResult :=
  let path := buildPath st.namePfx param
  match env.modifiedTime path with
  | none =>
    (st, [Event.drv "ModifiedTime".data [path], Event.reply 450], Outcome.err)
  | some _ =>
    (st, [Event.drv "ModifiedTime".data [path], Event.reply 213], Outcome.ok)

/-- Model of `commandMkd.Execute`. -/
def commandMkdExecute (env : Env) (st : ConnState) (param : List Char) :
    ExecResult :=
  let path := buildPath st.namePfx param
  match env.makeDir path with
  | none => (st, [Event.drv "MakeDir".data [path]], Outcome.err)
  | some true =>
    (st, [Event.drv "MakeDir".data [path], Event.reply 257], Outcome.ok)
  | some false =>
    (st, [Event.drv "MakeDir".data [path], Event.reply 550], Outcome.ok)

/-- Model of `commandMode.Execute`. -/
def commandModeExecute (_env : Env) (st : ConnState) (param : List Char) :
    ExecResult :=
  if toUpperList param = "S".data then (st, [Event.reply 200], Outcome.ok)
  else (st, [Event.reply 504], Outcome.ok)

/-- Model of `commandNoop.Execute`. -/
def commandNoopExecute (_env : Env) (st : ConnState) (_param : List Char) :
    ExecResult :=
  (st, [Event.reply 200], Outcome.ok)

/-- Model of `commandOpts.Execute`. -/
def commandOptsExecute (_env : Env) (st : ConnState) (param : List Char) :
    ExecResult :=
  if param = "UTF8 ON".data ∨ param = "UTF8".data then
    (st, [Event.reply 200], Outcome.ok)
  else (st, [Event.reply 500], Outcome.ok)

/-- Model of `commandPass.Execute` (src/commands.go:454): failure (driver
error or `false`) replies 530 then 221 and closes the connection
(`ftpConn.Close` also closes any data socket); success promotes `reqUser`
to `user` and replies 230. -/
def commandPassExecute (env : Env) (st : ConnState) (param : List Char) :
    ExecResult :=
  let call := Event.drv "Authenticate".data [st.reqUser, param, env.remoteIp]
  match env.authenticate st.reqUser param env.remoteIp with
  | some true =>
    ({ st with user := st.reqUser, reqUser := [] },
      [call, Event.reply 230], Outcome.ok)
  | some false =>
    (st, [call, Event.reply 530, Event.reply 221, Event.closeConn] ++
      (if st.hasDataConn then [Event.closeData] else []), Outcome.ok)
  | none =>
    (st, [call, Event.reply 530, Event.reply 221, Event.closeConn] ++
      (if st.hasDataConn then [Event.closeData] else []), Outcome.ok)

/-- Model of `commandPasv.Execute` (src/commands.go:490): on success quote
`(h1,h2,h3,h4,p1,p2)` with `p1 = port/256`, `p2 = port - p1*256`, using the
advertised IP when configured, else the socket's host; indexing the quads
panics when the host does not split into at least four parts. -/
def commandPasvExecute (env : Env) (st : ConnState) (_param : List Char) :
    ExecResult :=
  let r := newPassiveSocketM env st
  match r.2.2 with
  | none => (r.1, r.2.1 ++ [Event.reply 425], Outcome.err)
  | some port =>
    let p1 := port / 256
    let p2 := port - p1 * 256
    let host := if env.pasvAdvertisedIp ≠ [] then env.pasvAdvertisedIp
      else env.passiveHost
    let quads := splitOnChar '.' host
    if quads.length < 4 then (r.1, r.2.1, Outcome.panicked)
    else
      (r.1, r.2.1 ++ [Event.replyPasv (quads.getD 0 []) (quads.getD 1 [])
        (quads.getD 2 []) (quads.getD 3 []) p1 p2], Outcome.ok)

/-- Model of `commandPort.Execute`. -/
def commandPortExecute (env : Env) (st : ConnState) (param : List Char) :
    ExecResult :=
  let nums := splitOnChar ',' param
  if nums.length < 6 then (st, [Event.reply 425], Outcome.ok)
  else
    match parseUint16 (nums.getD 4 []) with
    | none => (st, [], Outcome.err)
    | some _ =>
      match parseUint16 (nums.getD 5 []) with
      | none => (st, [], Outcome.err)
      | some _ =>
        let r := newActiveSocketM env st
        if r.2.2 then (r.1, r.2.1 ++ [Event.reply 200], Outcome.ok)
        else (r.1, r.2.1 ++ [Event.reply 425], Outcome.err)

/-- Model of `commandPwd.Execute`. -/
def commandPwdExecute (_env : Env) (st : ConnState) (_param : List Char) :
    ExecResult :=
  (st, [Event.reply 257], Outcome.ok)

/-- Model of `commandQuit.Execute` (`ftpConn.Close`). -/
def commandQuitExecute (_env : Env) (st : ConnState) (_param : List Char) :
    ExecResult :=
  (st, Event.closeConn :: (if st.hasDataConn then [Event.closeData] else []),
    Outcome.ok)

/-- Model of `commandRetr.Execute`: the reader's `Close` is deferred, so it
fires after `sendOutOfBandReader` returns. -/
def commandRetrExecute (env : Env) (st : ConnState) (param : List Char) :
    ExecResult :=
  let path := buildPath st.namePfx param
  match env.getFile path with
  | none =>
    (st, [Event.drv "GetFile".data [path], Event.reply 551], Outcome.err)
  | some _ =>
    let r := sendOutOfBandReader env st
    (r.1, Event.drv "GetFile".data [path] :: Event.reply 150 ::
      (r.2.1 ++ [Event.closeReader]), r.2.2)

/-- Model of `commandRnfr.Execute`. -/
def commandRnfrExecute (_env : Env) (st : ConnState) (param : List Char) :
    ExecResult :=
  ({ st with renameFrom := buildPath st.namePfx param },
    [Event.reply 350], Outcome.ok)

/-- Model of `commandRnto.Execute` (src/commands.go:660): 503 without a
pending RNFR, otherwise `driver.Rename(renameFrom, buildPath param)` and
250/550.  Note: the source never clears `renameFrom`. -/
def commandRntoExecute (env : Env) (st : ConnState) (param : List Char) :
    ExecResult :=
  if st.renameFrom = [] then (st, [Event.reply 503], Outcome.ok)
  else
    let toPath := buildPath st.namePfx param
    match env.rename st.renameFrom toPath with
    | none =>
      (st, [Event.drv "Rename".data [st.renameFrom, toPath]], Outcome.err)
    | some true =>
      (st, [Event.drv "Rename".data [st.renameFrom, toPath], Event.reply 250],
        Outcome.ok)
    | some false =>
      (st, [Event.drv "Rename".data [st.renameFrom, toPath], Event.reply 550],
        Outcome.ok)

/-- Model of `commandRmd.Execute`. -/
def commandRmdExecute (env : Env) (st : ConnState) (param : List Char) :
    ExecResult :=
  let path := buildPath st.namePfx param
  match env.deleteDir path with
  | none => (st, [Event.drv "DeleteDir".data [path]], Outcome.err)
  | some true =>
    (st, [Event.drv "DeleteDir".data [path], Event.reply 250], Outcome.ok)
  | some false =>
    (st, [Event.drv "DeleteDir".data [path], Event.reply 550], Outcome.ok)

/-- Model of `commandSize.Execute`. -/
def commandSizeExecute (env : Env) (st : ConnState) (param : List Char) :
    ExecResult :=
  let path := buildPath st.namePfx param
  match env.bytes path with
  | none => (st, [Event.drv "Bytes".data [path]], Outcome.err)
  | some b =>
    if b ≥ 0 then
      (st, [Event.drv "Bytes".data [path], Event.reply 213], Outcome.ok)
    else (st, [Event.drv "Bytes".data [path], Event.reply 450], Outcome.ok)

/-- Model of `commandStor.Execute` (src/commands.go:749): 150, then
`driver.PutFile`; 226 on `true`, 450 on `false`.  The handler never closes
the data socket. -/
def commandStorExecute (env : Env) (st : ConnState) (param : List Char) :
    ExecResult :=
  let path := buildPath st.namePfx param
  match env.putFile path with
  | none =>
    (st, [Event.reply 150, Event.drv "PutFile".data [path]], Outcome.err)
  | some true =>
    (st, [Event.reply 150, Event.drv "PutFile".data [path], Event.reply 226],
      Outcome.ok)
  | some false =>
    (st, [Event.reply 150, Event.drv "PutFile".data [path], Event.reply 450],
      Outcome.ok)

/-- Model of `commandStru.Execute`. -/
def commandStruExecute (_env : Env) (st : ConnState) (param : List Char) :
    ExecResult :=
  if toUpperList param = "F".data then (st, [Event.reply 200], Outcome.ok)
  else (st, [Event.reply 504], Outcome.ok)

/-- Model of `commandSyst.Execute`. -/
def commandSystExecute (_env : Env) (st : ConnState) (_param : List Char) :
    ExecResult :=
  (st, [Event.reply 215], Outcome.ok)

/-- Model of `commandType.Execute`. -/
def commandTypeExecute (_env : Env) (st : ConnState) (param : List Char) :
    ExecResult :=
  if toUpperList param = "A".data then (st, [Event.reply 200], Outcome.ok)
  else if toUpperList param = "I".data then (st, [Event.reply 200], Outcome.ok)
  else (st, [Event.reply 500], Outcome.ok)

/-- Model of `commandUser.Execute` (src/commands.go:860): store `reqUser`,
reply 331; no other field is touched. -/
def commandUserExecute (_env : Env) (st : ConnState) (param : List Char) :
    ExecResult :=
  ({ st with reqUser := param }, [Event.reply 331], Outcome.ok)

/-- One entry of the command table: the two precondition booleans and the
handler (`RequireParam`, `RequireAuth`, `Execute` of the Go interface). -/
structure CmdInfo where
  requireParam : Bool
  requireAuth : Bool
  exec : Env → ConnState → List Char → ExecResult

/-- The command table (src/commands.go:22), including the X-aliases. -/
def commandsList : List (List Char × CmdInfo) := [
  ("ALLO".data, ⟨false, false, commandAlloExecute⟩),
  ("CDUP".data, ⟨false, true, commandCdupExecute⟩),
  ("CWD".data, ⟨true, true, commandCwdExecute⟩),
  ("DELE".data, ⟨true, true, commandDeleExecute⟩),
  ("EPRT".data, ⟨true, true, commandEprtExecute⟩),
  ("EPSV".data, ⟨false, true, commandEpsvExecute⟩),
  ("FEAT".data, ⟨false, false, commandFeatExecute⟩),
  ("LIST".data, ⟨false, true, commandListExecute⟩),
  ("NLST".data, ⟨false, true, commandNlstExecute⟩),
  ("MDTM".data, ⟨true, true, commandMdtmExecute⟩),
  ("MKD".data, ⟨true, true, commandMkdExecute⟩),
  ("MODE".data, ⟨true, true, commandModeExecute⟩),
  ("NOOP".data, ⟨false, false, commandNoopExecute⟩),
  ("OPTS".data, ⟨false, true, commandOptsExecute⟩),
  ("PASS".data, ⟨true, false, commandPassExecute⟩),
  ("PASV".data, ⟨false, true, commandPasvExecute⟩),
  ("PORT".data, ⟨true, true, commandPortExecute⟩),
  ("PWD".data, ⟨false, true, commandPwdExecute⟩),
  ("QUIT".data, ⟨false, false, commandQuitExecute⟩),
  ("RETR".data, ⟨true, true, commandRetrExecute⟩),
  ("RNFR".data, ⟨true, true, commandRnfrExecute⟩),
  ("RNTO".data, ⟨true, true, commandRntoExecute⟩),
  ("RMD".data, ⟨true, true, commandRmdExecute⟩),
  ("SIZE".data, ⟨true, true, commandSizeExecute⟩),
  ("STOR".data, ⟨true, true, commandStorExecute⟩),
  ("STRU".data, ⟨true, true, commandStruExecute⟩),
  ("SYST".data, ⟨false, true, commandSystExecute⟩),
  ("TYPE".data, ⟨false, true, commandTypeExecute⟩),
  ("USER".data, ⟨true, false, commandUserExecute⟩),
  ("XCUP".data, ⟨false, true, commandCdupExecute⟩),
  ("XCWD".data, ⟨true, true, commandCwdExecute⟩),
  ("XPWD".data, ⟨false, true, commandPwdExecute⟩),
  ("XRMD".data, ⟨true, true, commandRmdExecute⟩)]

/-- Look a command token up in the table (Go map indexing). -/
def commandsLookup (cmd : List Char) : Option CmdInfo :=
  (commandsList.lookup cmd)

/-- Model of the dispatch part of `ftpConn.receiveLine` (src/ftpconn.go:136):
unknown command ⇒ 500; the parameter gate (553) is checked before the
authentication gate (530); then the handler runs. -/
def dispatch (env : Env) (st : ConnState) (command param : List Char) :
    ExecResult :=
  match commandsLookup command with
  | none => (st, [Event.reply 500], Outcome.ok)
  | some c =>
    if c.requireParam = true ∧ param = [] then
      (st, [Event.reply 553], Outcome.ok)
    else if c.requireAuth = true ∧ st.user = [] then
      (st, [Event.reply 530], Outcome.ok)
    else c.exec env st param

/-- Model of `ftpConn.receiveLine` on a full input line. -/
def receiveLine (env : Env) (st : ConnState) (line : List Char) : ExecResult :=
  let r := parseLine line
  dispatch env st r.1 r.2

/-- A concrete oracle for witnesses and counterexamples: a driver that
accepts everything, a healthy network. -/
def env0 : Env where
  remoteIp := "1.2.3.4".data
  pasvAdvertisedIp := []
  passiveHost := "127.0.0.1".data
  passivePort := some 60242
  activeDialOk := true
  copyOk := true
  authenticate := fun _ _ _ => some true
  changeDir := fun _ => some true
  deleteFile := fun _ => some true
  deleteDir := fun _ => some true
  makeDir := fun _ => some true
  rename := fun _ _ => some true
  bytes := fun _ => some 42
  modifiedTime := fun _ => some ()
  dirContents := fun _ => some ()
  getFile := fun _ => some ()
  putFile := fun _ => some true

/-- A fresh, unauthenticated session as `newFtpConn` builds it. -/
def st0 : ConnState where
  namePfx := "/".data
  reqUser := []
  user := []
  renameFrom := []
  hasDataConn := false

/-- An authenticated session. -/
def stAuth : ConnState where
  namePfx := "/".data
  reqUser := []
  user := "test".data
  renameFrom := []
  hasDataConn := false

/-! ### Claim theorems -/

theorem lookup_cwd : commandsLookup "CWD".data =
    some ⟨true, true, commandCwdExecute⟩ := rfl

theorem lookup_pass : commandsLookup "PASS".data =
    some ⟨true, false, commandPassExecute⟩ := rfl

theorem lookup_rnto : commandsLookup "RNTO".data =
    some ⟨true, true, commandRntoExecute⟩ := rfl

theorem lookup_stor : commandsLookup "STOR".data =
    some ⟨true, true, commandStorExecute⟩ := rfl

theorem lookup_retr : commandsLookup "RETR".data =
    some ⟨true, true, commandRetrExecute⟩ := rfl

theorem lookup_user : commandsLookup "USER".data =
    some ⟨true, false, commandUserExecute⟩ := rfl

theorem lookup_pasv : commandsLookup "PASV".data =
    some ⟨false, true, commandPasvExecute⟩ := rfl

theorem lookup_eprt : commandsLookup "EPRT".data =
    some ⟨true, true, commandEprtExecute⟩ := rfl

/-- Claim C1 (amended): for every table entry with `requires_auth = true`,
dispatching on a session with empty `user` yields exactly one reply and
leaves the state untouched with no driver call: reply 530 whenever the
entry's parameter requirement is met, and reply 553 (the parameter gate,
which `receiveLine` checks first) when `requires_param = true` and the
parameter is empty. -/
theorem auth_gate_530 (cmd : List Char) (info : CmdInfo) (env : Env)
    (st : ConnState) (param : List Char)
    (hlook : commandsLookup cmd = some info)
    (hauth : info.requireAuth = true) (huser : st.user = []) :
    ((info.requireParam = true → param ≠ []) →
      dispatch env st cmd param = (st, [Event.reply 530], Outcome.ok)) ∧
    (info.requireParam = true → param = [] →
      dispatch env st cmd param = (st, [Event.reply 553], Outcome.ok)) := by
  constructor
  · intro hpar
    have h1 : ¬(info.requireParam = true ∧ param = []) := fun hand =>
      hpar hand.1 hand.2
    unfold dispatch
    rw [hlook]
    simp [h1, hauth, huser]
  · intro hrp hpe
    unfold dispatch
    rw [hlook]
    simp [hrp, hpe]

/-- Witness for C1: CWD with a parameter on a fresh session replies 530. -/
theorem auth_gate_530_witness :
    dispatch env0 st0 "CWD".data "x".data = (st0, [Event.reply 530], Outcome.ok) :=
  (auth_gate_530 "CWD".data ⟨true, true, commandCwdExecute⟩ env0 st0 "x".data
    rfl rfl rfl).1 (fun _ => by decide)

/-- Counterexample to C1: CWD has `requires_auth = true`, yet dispatching it
with an empty parameter on an unauthenticated session replies 553 (the
parameter gate fires first), not 530 as the claim states. -/
theorem auth_gate_553_counterexample :
    dispatch env0 st0 "CWD".data [] = (st0, [Event.reply 553], Outcome.ok) ∧
    [Event.reply 553] ≠ [Event.reply 530] := by decide

/-- Claim C10: USER with a non-empty parameter, in any session state, stores the
parameter in `reqUser`, replies 331, and changes nothing else — in
particular `user` survives, so an authenticated session stays
authenticated. -/
theorem commandUser_frame (env : Env) (st : ConnState) (param : List Char)
    (hp : param ≠ []) :
    dispatch env st "USER".data param =
      ({ st with reqUser := param }, [Event.reply 331], Outcome.ok) := by
  unfold dispatch
  rw [lookup_user]
  simp [hp, commandUserExecute]

/-- Witness for C10 on an already-authenticated session. -/
theorem commandUser_frame_witness :
    dispatch env0 stAuth "USER".data "carol".data =
      ({ stAuth with reqUser := "carol".data }, [Event.reply 331], Outcome.ok) :=
  commandUser_frame env0 stAuth "carol".data (by decide)

/-- Claim C3: PASS calls `driver.Authenticate(reqUser, param, remoteIp)`.  On
`true` it promotes `reqUser` to `user`, clears `reqUser` and replies 230;
on `false` or a driver error it replies 530 then 221 and closes the
connection, leaving the state (hence an empty `user`) unchanged. -/
theorem commandPass_spec (env : Env) (st : ConnState) (param : List Char)
    (hp : param ≠ []) :
    (env.authenticate st.reqUser param env.remoteIp = some true →
      dispatch env st "PASS".data param =
        ({ st with user := st.reqUser, reqUser := [] },
          [Event.drv "Authenticate".data [st.reqUser, param, env.remoteIp],
           Event.reply 230], Outcome.ok)) ∧
    (env.authenticate st.reqUser param env.remoteIp ≠ some true →
      dispatch env st "PASS".data param =
        (st, [Event.drv "Authenticate".data [st.reqUser, param, env.remoteIp],
          Event.reply 530, Event.reply 221, Event.closeConn] ++
          (if st.hasDataConn then [Event.closeData] else []), Outcome.ok)) := by
  constructor
  · intro h
    unfold dispatch
    rw [lookup_pass]
    simp [hp, commandPassExecute, h]
  · intro h
    unfold dispatch
    rw [lookup_pass]
    cases hav : env.authenticate st.reqUser param env.remoteIp with
    | none => simp [hp, commandPassExecute, hav]
    | some b =>
      cases b with
      | true => exact absurd hav h
      | false => simp [hp, commandPassExecute, hav]

/-- Witness for C3: successful login as `bob`. -/
theorem commandPass_spec_witness :
    dispatch env0 { st0 with reqUser := "bob".data } "PASS".data "pw".data =
      ({ st0 with user := "bob".data },
        [Event.drv "Authenticate".data
          ["bob".data, "pw".data, "1.2.3.4".data], Event.reply 230],
        Outcome.ok) :=
  (commandPass_spec env0 { st0 with reqUser := "bob".data } "pw".data
    (by decide)).1 (by decide)

/-- Claim C4 (amended): RNTO with no pending RNFR replies 503 and calls no driver
operation; with a pending `renameFrom` it calls
`driver.Rename(renameFrom, buildPath param)` and replies 250 or 550 — but
the handler leaves the session state, including `renameFrom`, unchanged:
the source never clears the pending rename. -/
theorem commandRnto_spec (env : Env) (st : ConnState) (param : List Char)
    (hp : param ≠ []) (ha : st.user ≠ []) :
    (st.renameFrom = [] →
      dispatch env st "RNTO".data param = (st, [Event.reply 503], Outcome.ok)) ∧
    (st.renameFrom ≠ [] →
      (dispatch env st "RNTO".data param).1 = st ∧
      (dispatch env st "RNTO".data param).2.1 =
        Event.drv "Rename".data [st.renameFrom, buildPath st.namePfx param] ::
          (match env.rename st.renameFrom (buildPath st.namePfx param) with
           | some true => [Event.reply 250]
           | some false => [Event.reply 550]
           | none => [])) := by
  constructor
  · intro h0
    unfold dispatch
    rw [lookup_rnto]
    simp [hp, ha, commandRntoExecute, h0]
  · intro h0
    unfold dispatch
    rw [lookup_rnto]
    cases hr : env.rename st.renameFrom (buildPath st.namePfx param) with
    | none =>
      constructor <;> simp [hp, ha, commandRntoExecute, h0, hr]
    | some b =>
      cases b with
      | true =>
        constructor <;> simp [hp, ha, commandRntoExecute, h0, hr]
      | false =>
        constructor <;> simp [hp, ha, commandRntoExecute, h0, hr]

/-- Witness for C4 on a session with a pending rename. -/
theorem commandRnto_spec_witness :
    (dispatch env0 { stAuth with renameFrom := "/a".data } "RNTO".data
      "b".data).1 = { stAuth with renameFrom := "/a".data } ∧
    (dispatch env0 { stAuth with renameFrom := "/a".data } "RNTO".data
      "b".data).2.1 =
      Event.drv "Rename".data ["/a".data,
        buildPath ({ stAuth with renameFrom := "/a".data } : ConnState).namePfx
          "b".data] ::
        (match env0.rename "/a".data
          (buildPath ({ stAuth with renameFrom := "/a".data } : ConnState).namePfx
            "b".data) with
         | some true => [Event.reply 250]
         | some false => [Event.reply 550]
         | none => []) :=
  (commandRnto_spec env0 { stAuth with renameFrom := "/a".data } "b".data
    (by decide) (by decide)).2 (by decide)

/-- Counterexample to C4: after a successful RNTO (driver returns `true`,
reply 250), `renameFrom` still holds the old path — it is not cleared. -/
theorem rnto_not_cleared_counterexample :
    (dispatch env0 { stAuth with renameFrom := "/a".data } "RNTO".data
      "b".data).2.1 =
      [Event.drv "Rename".data ["/a".data, "/b".data], Event.reply 250] ∧
    (dispatch env0 { stAuth with renameFrom := "/a".data } "RNTO".data
      "b".data).1.renameFrom = "/a".data ∧
    "/a".data ≠ ([] : List Char) := by decide

/-- Claim C5 (amended): the 226 reply is written *before* the data socket closes.
`sendOutOfBandReader` registers the close with `defer`, so a successful
transfer's trace is copy, 226, sleep, close; RETR/LIST/NLST inherit this
order, and STOR emits 226 without closing the data socket at all. -/
theorem transfer_reply_order (env : Env) (st : ConnState) (param : List Char)
    (hd : st.hasDataConn = true) (hc : env.copyOk = true) (hp : param ≠ [])
    (ha : st.user ≠ []) :
    sendOutOfBandReader env st =
      (st, [Event.copyData, Event.reply 226, Event.sleepE, Event.closeData],
        Outcome.ok) ∧
    (env.putFile (buildPath st.namePfx param) = some true →
      dispatch env st "STOR".data param =
        (st, [Event.reply 150,
          Event.drv "PutFile".data [buildPath st.namePfx param],
          Event.reply 226], Outcome.ok) ∧
      Event.closeData ∉ (dispatch env st "STOR".data param).2.1) ∧
    (env.getFile (buildPath st.namePfx param) = some () →
      dispatch env st "RETR".data param =
        (st, [Event.drv "GetFile".data [buildPath st.namePfx param],
          Event.reply 150, Event.copyData, Event.reply 226, Event.sleepE,
          Event.closeData, Event.closeReader], Outcome.ok)) := by
  refine ⟨by simp [sendOutOfBandReader, hd, hc], ?_, ?_⟩
  · intro h
    have heq : dispatch env st "STOR".data param =
        (st, [Event.reply 150,
          Event.drv "PutFile".data [buildPath st.namePfx param],
          Event.reply 226], Outcome.ok) := by
      unfold dispatch
      rw [lookup_stor]
      simp [hp, ha, commandStorExecute, h]
    exact ⟨heq, by rw [heq]; simp⟩
  · intro h
    unfold dispatch
    rw [lookup_retr]
    simp [hp, ha, commandRetrExecute, h, sendOutOfBandReader, hd, hc]

/-- Witness for C5 on a session with an attached data socket. -/
theorem transfer_reply_order_witness :
    sendOutOfBandReader env0 { stAuth with hasDataConn := true } =
      ({ stAuth with hasDataConn := true },
        [Event.copyData, Event.reply 226, Event.sleepE, Event.closeData],
        Outcome.ok) :=
  (transfer_reply_order env0 { stAuth with hasDataConn := true } "f".data
    rfl rfl (by decide) (by decide)).1

/-- Counterexample to C5: in the trace of a successful transfer the 226 reply
(index 1) precedes the data-socket close (index 3), and a successful STOR
emits 226 in a trace containing no data-socket close at all — contradicting
the claim that 226 is emitted only after the data socket has been closed. -/
theorem transfer_close_order_counterexample :
    (sendOutOfBandReader env0 { st0 with hasDataConn := true }).2.1 =
      [Event.copyData, Event.reply 226, Event.sleepE, Event.closeData] ∧
    List.indexOf (Event.reply 226)
        (sendOutOfBandReader env0 { st0 with hasDataConn := true }).2.1 <
      List.indexOf Event.closeData
        (sendOutOfBandReader env0 { st0 with hasDataConn := true }).2.1 ∧
    (dispatch env0 { stAuth with hasDataConn := true } "STOR".data
      "f".data).2.1 =
      [Event.reply 150, Event.drv "PutFile".data ["/f".data],
        Event.reply 226] := by decide

/-- Claim C7: a successful PASV quotes `(h1,h2,h3,h4,p1,p2)` with
`p1 = port / 256` and `p2 = port - p1*256`, so `port = 256*p1 + p2` and
`0 ≤ p2 < 256`; the dotted quad comes from `pasvAdvertisedIp` when that is
non-empty and from the socket's own host otherwise. -/
theorem commandPasv_quotation (env : Env) (st : ConnState) (param : List Char)
    (ha : st.user ≠ []) (port : Nat) (hport : env.passivePort = some port)
    (hquads : 4 ≤ (splitOnChar '.' (if env.pasvAdvertisedIp ≠ [] then
      env.pasvAdvertisedIp else env.passiveHost)).length) :
    dispatch env st "PASV".data param =
      ({ st with hasDataConn := true },
        (if st.hasDataConn = true then [Event.closeData] else []) ++
          [Event.replyPasv
            ((splitOnChar '.' (if env.pasvAdvertisedIp ≠ [] then
              env.pasvAdvertisedIp else env.passiveHost)).getD 0 [])
            ((splitOnChar '.' (if env.pasvAdvertisedIp ≠ [] then
              env.pasvAdvertisedIp else env.passiveHost)).getD 1 [])
            ((splitOnChar '.' (if env.pasvAdvertisedIp ≠ [] then
              env.pasvAdvertisedIp else env.passiveHost)).getD 2 [])
            ((splitOnChar '.' (if env.pasvAdvertisedIp ≠ [] then
              env.pasvAdvertisedIp else env.passiveHost)).getD 3 [])
            (port / 256) (port - port / 256 * 256)], Outcome.ok) ∧
    port = 256 * (port / 256) + (port - port / 256 * 256) ∧
    port - port / 256 * 256 < 256 := by
  have hdm := Nat.div_add_mod port 256
  have hlt := Nat.mod_lt port (show 0 < 256 by decide)
  have hle : port / 256 * 256 ≤ port := Nat.div_mul_le_self port 256
  refine ⟨?_, by omega, by omega⟩
  unfold dispatch
  rw [lookup_pasv]
  have hnl : ¬((splitOnChar '.' (if env.pasvAdvertisedIp ≠ [] then
      env.pasvAdvertisedIp else env.passiveHost)).length < 4) :=
    Nat.not_lt.mpr hquads
  cases hd : st.hasDataConn with
  | true =>
    simp [ha, commandPasvExecute, newPassiveSocketM, closeExistingData, hd,
      hport, hnl]
    simpa using hquads
  | false =>
    simp [ha, commandPasvExecute, newPassiveSocketM, closeExistingData, hd,
      hport, hnl]
    simpa using hquads

/-- Witness for C7 at port 60242 with no advertised IP (host 127.0.0.1). -/
theorem commandPasv_quotation_witness :
    dispatch env0 stAuth "PASV".data [] =
      ({ stAuth with hasDataConn := true },
        (if stAuth.hasDataConn = true then [Event.closeData] else []) ++
          [Event.replyPasv
            ((splitOnChar '.' (if env0.pasvAdvertisedIp ≠ [] then
              env0.pasvAdvertisedIp else env0.passiveHost)).getD 0 [])
            ((splitOnChar '.' (if env0.pasvAdvertisedIp ≠ [] then
              env0.pasvAdvertisedIp else env0.passiveHost)).getD 1 [])
            ((splitOnChar '.' (if env0.pasvAdvertisedIp ≠ [] then
              env0.pasvAdvertisedIp else env0.passiveHost)).getD 2 [])
            ((splitOnChar '.' (if env0.pasvAdvertisedIp ≠ [] then
              env0.pasvAdvertisedIp else env0.passiveHost)).getD 3 [])
            (60242 / 256) (60242 - 60242 / 256 * 256)], Outcome.ok) ∧
    60242 = 256 * (60242 / 256) + (60242 - 60242 / 256 * 256) ∧
    60242 - 60242 / 256 * 256 < 256 :=
  commandPasv_quotation env0 stAuth [] (by decide) 60242 rfl (by decide)

/-- Claim C8: evaluation of the port sampler at the spec's corner cases.
`randomPort 0 0 r = 0` (OS-chosen) as claimed, and a mid-range draw does
land at `min + r`; but `randomPort` is not total on `min ≤ max`: with
`max = min + 1` the uint16 expression `max - min - 1` is 0 and
`rand.Intn(0)` panics (`none`), and with `max = min ≠ 0` it wraps to 65535,
producing ports far outside `[min, max)` (here 65005 from range `[5,5]`). -/
theorem randomPort_bug :
    randomPort 0 0 5 = some 0 ∧
    randomPort 1 2 0 = none ∧
    randomPort 5 5 65000 = some 65005 ∧
    randomPort 60200 60300 42 = some 60242 := by decide

/-- Claim C9 (amended): an EPRT parameter with at least four delimiter-separated
fields never panics: the handler replies 522 for a protocol other than 1/2,
200 on a successful dial, 425 on a failed one, and returns a bare parse
error (no reply) for a non-numeric protocol or port; the empty parameter is
stopped by the 553 gate.  (With fewer than four fields the handler panics —
see the counterexample.) -/
theorem commandEprt_safety (env : Env) (st : ConnState) (param : List Char)
    (hp : param ≠ []) (ha : st.user ≠ [])
    (h4 : 4 ≤ (splitOnChar (param.headD ' ') param).length) :
    (dispatch env st "EPRT".data param).2.2 ≠ Outcome.panicked ∧
    (∀ code, Event.reply code ∈ (dispatch env st "EPRT".data param).2.1 →
      code = 522 ∨ code = 200 ∨ code = 425) ∧
    dispatch env st "EPRT".data [] = (st, [Event.reply 553], Outcome.ok) := by
  have hgate : dispatch env st "EPRT".data param =
      commandEprtExecute env st param := by
    unfold dispatch
    rw [lookup_eprt]
    simp [hp, ha]
  have hempty : dispatch env st "EPRT".data [] =
      (st, [Event.reply 553], Outcome.ok) := by
    unfold dispatch
    rw [lookup_eprt]
    simp
  rw [hgate]
  have hchar : (commandEprtExecute env st param).2.2 ≠ Outcome.panicked ∧
      (∀ code, Event.reply code ∈ (commandEprtExecute env st param).2.1 →
        code = 522 ∨ code = 200 ∨ code = 425) := by
    cases param with
    | nil => exact absurd rfl hp
    | cons d t =>
      have h4' : 4 ≤ (splitOnChar d (d :: t)).length := h4
      have hbody : commandEprtExecute env st (d :: t) =
          (match atoi ((splitOnChar d (d :: t)).getD 1 []) with
           | none => (st, [], Outcome.err)
           | some af =>
             if (splitOnChar d (d :: t)).length < 3 then
               (st, [], Outcome.panicked)
             else if (splitOnChar d (d :: t)).length < 4 then
               (st, [], Outcome.panicked)
             else
               match parseUint16 ((splitOnChar d (d :: t)).getD 3 []) with
               | none => (st, [], Outcome.err)
               | some _ =>
                 if af ≠ 1 ∧ af ≠ 2 then (st, [Event.reply 522], Outcome.ok)
                 else
                   let r := newActiveSocketM env st
                   if r.2.2 then (r.1, r.2.1 ++ [Event.reply 200], Outcome.ok)
                   else (r.1, r.2.1 ++ [Event.reply 425], Outcome.err)) := rfl
      rw [hbody]
      cases hat : atoi ((splitOnChar d (d :: t)).getD 1 []) with
      | none => exact ⟨by simp, by simp⟩
      | some af =>
        rw [show (match some af with
           | none => (st, ([] : List Event), Outcome.err)
           | some af =>
             if (splitOnChar d (d :: t)).length < 3 then
               (st, [], Outcome.panicked)
             else if (splitOnChar d (d :: t)).length < 4 then
               (st, [], Outcome.panicked)
             else
               match parseUint16 ((splitOnChar d (d :: t)).getD 3 []) with
               | none => (st, [], Outcome.err)
               | some _ =>
                 if af ≠ 1 ∧ af ≠ 2 then (st, [Event.reply 522], Outcome.ok)
                 else
                   let r := newActiveSocketM env st
                   if r.2.2 then (r.1, r.2.1 ++ [Event.reply 200], Outcome.ok)
                   else (r.1, r.2.1 ++ [Event.reply 425], Outcome.err)) =
          (if (splitOnChar d (d :: t)).length < 3 then
             (st, [], Outcome.panicked)
           else if (splitOnChar d (d :: t)).length < 4 then
             (st, [], Outcome.panicked)
           else
             match parseUint16 ((splitOnChar d (d :: t)).getD 3 []) with
             | none => (st, [], Outcome.err)
             | some _ =>
               if af ≠ 1 ∧ af ≠ 2 then (st, [Event.reply 522], Outcome.ok)
               else
                 let r := newActiveSocketM env st
                 if r.2.2 then (r.1, r.2.1 ++ [Event.reply 200], Outcome.ok)
                 else (r.1, r.2.1 ++ [Event.reply 425], Outcome.err)) from rfl,
          if_neg (show ¬((splitOnChar d (d :: t)).length < 3) by omega),
          if_neg (show ¬((splitOnChar d (d :: t)).length < 4) by omega)]
        cases hpu : parseUint16 ((splitOnChar d (d :: t)).getD 3 []) with
        | none => exact ⟨by simp, by simp⟩
        | some p =>
          by_cases haf : af ≠ 1 ∧ af ≠ 2
          · refine ⟨by simp [haf], ?_⟩
            intro code hm
            simp [haf] at hm
            omega
          · cases hdial : env.activeDialOk with
            | true =>
              cases hd : st.hasDataConn with
              | true =>
                refine ⟨by simp [haf, newActiveSocketM, closeExistingData,
                  hdial, hd], ?_⟩
                intro code hm
                simp [haf, newActiveSocketM, closeExistingData, hdial, hd] at hm
                omega
              | false =>
                refine ⟨by simp [haf, newActiveSocketM, closeExistingData,
                  hdial, hd], ?_⟩
                intro code hm
                simp [haf, newActiveSocketM, closeExistingData, hdial, hd] at hm
                omega
            | false =>
              cases hd : st.hasDataConn with
              | true =>
                refine ⟨by simp [haf, newActiveSocketM, closeExistingData,
                  hdial, hd], ?_⟩
                intro code hm
                simp [haf, newActiveSocketM, closeExistingData, hdial, hd] at hm
                omega
              | false =>
                refine ⟨by simp [haf, newActiveSocketM, closeExistingData,
                  hdial, hd], ?_⟩
                intro code hm
                simp [haf, newActiveSocketM, closeExistingData, hdial, hd] at hm
                omega
  exact ⟨hchar.1, hchar.2, hempty⟩

/-- Witness for C9 with the well-formed parameter `|9|h|20|` (protocol 9,
rejected with 522). -/
theorem commandEprt_safety_witness :
    (dispatch env0 stAuth "EPRT".data "|9|h|20|".data).2.2 ≠
      Outcome.panicked ∧
    (∀ code, Event.reply code ∈
        (dispatch env0 stAuth "EPRT".data "|9|h|20|".data).2.1 →
      code = 522 ∨ code = 200 ∨ code = 425) ∧
    dispatch env0 stAuth "EPRT".data [] =
      (stAuth, [Event.reply 553], Outcome.ok) :=
  commandEprt_safety env0 stAuth "|9|h|20|".data (by decide) (by decide)
    (by decide)

/-- Counterexample to C9: the authenticated EPRT parameter `|1` has fewer than
four fields; the handler indexes `parts[2]` out of range and panics, so the
session does not simply continue with a 5xx reply as claimed (the panic is
recovered in `Serve`, which then closes the connection). -/
theorem eprt_panic_counterexample :
    dispatch env0 stAuth "EPRT".data "|1".data =
      (stAuth, [], Outcome.panicked) ∧
    Outcome.panicked ≠ Outcome.ok := by decide

theorem trimLeftChars_eq_self (cut l : List Char)
    (h : ∀ c, l.head? = some c → c ∉ cut) : trimLeftChars cut l = l := by
  cases l with
  | nil => rfl
  | cons a as =>
    unfold trimLeftChars
    rw [if_neg (h a rfl)]

theorem trimLeftChars_cons_mem (cut : List Char) (a : Char) (l : List Char)
    (hm : a ∈ cut) : trimLeftChars cut (a :: l) = trimLeftChars cut l := by
  show (if a ∈ cut then trimLeftChars cut l else a :: l) = trimLeftChars cut l
  rw [if_pos hm]

theorem splitFirst_append (sep : Char) (cmd rest : List Char)
    (h : sep ∉ cmd) : splitFirst sep (cmd ++ sep :: rest) = (cmd, some rest) := by
  induction cmd with
  | nil => simp [splitFirst]
  | cons a as ih =>
    have ha : a ≠ sep := fun he => h (he ▸ List.mem_cons_self a as)
    have has : sep ∉ as := fun hm => h (List.mem_cons_of_mem a hm)
    simp [splitFirst, ha, ih has]

theorem trimChars_crlf_line (cmd rest : List Char)
    (hc : cmd.head? ≠ some '\r' ∧ cmd.head? ≠ some '\n')
    (hr : rest.getLast? ≠ some '\r' ∧ rest.getLast? ≠ some '\n') :
    trimChars ['\r', '\n'] (cmd ++ ' ' :: rest ++ ['\r', '\n']) =
      cmd ++ ' ' :: rest := by
  unfold trimChars trimRightChars
  have hleft : trimLeftChars ['\r', '\n'] (cmd ++ ' ' :: rest ++ ['\r', '\n']) =
      cmd ++ ' ' :: rest ++ ['\r', '\n'] := by
    apply trimLeftChars_eq_self
    intro c hcc
    cases cmd with
    | nil =>
      simp at hcc
      rw [← hcc]
      decide
    | cons a as =>
      have : a = c := by simpa using hcc
      subst this
      intro hmem
      rcases List.mem_cons.mp hmem with h1 | h1
      · exact hc.1 (by simp [h1])
      · have : a = '\n' := by simpa using h1
        exact hc.2 (by simp [this])
  rw [hleft]
  have hrev : (cmd ++ ' ' :: rest ++ ['\r', '\n']).reverse =
      '\n' :: '\r' :: (rest.reverse ++ ' ' :: cmd.reverse) := by
    simp
  rw [hrev, trimLeftChars_cons_mem _ _ _ (by decide),
    trimLeftChars_cons_mem _ _ _ (by decide)]
  have hmid : trimLeftChars ['\r', '\n'] (rest.reverse ++ ' ' :: cmd.reverse) =
      rest.reverse ++ ' ' :: cmd.reverse := by
    apply trimLeftChars_eq_self
    intro c hcc
    cases hrest : rest.reverse with
    | nil =>
      rw [hrest] at hcc
      simp at hcc
      rw [← hcc]
      decide
    | cons b bs =>
      rw [hrest] at hcc
      have hbc : b = c := by simpa using hcc
      subst hbc
      have hlast : rest.getLast? = some b := by
        rw [← List.head?_reverse, hrest]
        rfl
      intro hmem
      rcases List.mem_cons.mp hmem with h1 | h1
      · exact hr.1 (h1 ▸ hlast)
      · have : b = '\n' := by simpa using h1
        exact hr.2 (this ▸ hlast)
  rw [hmid]
  simp

/-- Claim C6 (amended): `parseLine` trims CR/LF from both ends of the line, splits
on the first space into command token and parameter, and whitespace-trims
the parameter (empty when there is no space) — but it performs no case
folding: the command token is returned verbatim, so a lowercase command such
as `noop` does not match the (uppercase-keyed) table, while `NOOP` does. -/
theorem parseLine_spec (cmd rest : List Char)
    (hsp : ' ' ∉ cmd)
    (hc : cmd.head? ≠ some '\r' ∧ cmd.head? ≠ some '\n')
    (hr : rest.getLast? ≠ some '\r' ∧ rest.getLast? ≠ some '\n') :
    parseLine (cmd ++ ' ' :: rest ++ ['\r', '\n']) = (cmd, trimSpace rest) ∧
    parseLine "noop\r\n".data = ("noop".data, []) ∧
    commandsLookup "noop".data = none ∧
    commandsLookup "NOOP".data = some ⟨false, false, commandNoopExecute⟩ := by
  refine ⟨?_, by decide, rfl, rfl⟩
  simp only [parseLine]
  rw [trimChars_crlf_line cmd rest hc hr, splitFirst_append ' ' cmd rest hsp]

/-- Witness for C6 on the line `LIST -al \r\n`. -/
theorem parseLine_spec_witness :
    parseLine ("LIST".data ++ ' ' :: "-al ".data ++ ['\r', '\n']) =
      ("LIST".data, trimSpace "-al ".data) ∧
    parseLine "noop\r\n".data = ("noop".data, []) ∧
    commandsLookup "noop".data = none ∧
    commandsLookup "NOOP".data = some ⟨false, false, commandNoopExecute⟩ :=
  parseLine_spec "LIST".data "-al ".data (by decide) (by decide) (by decide)

/-- Counterexample to C6: `parseLine` does not uppercase the command token, so
the lowercase line `noop` yields the token `noop`, which is absent from the
table and draws `500 Command not found`, while `NOOP` succeeds with 200 —
refuting the claim that a lowercase command resolves to the same entry. -/
theorem lowercase_command_counterexample :
    (parseLine "noop\r\n".data).1 = "noop".data ∧
    "noop".data ≠ "NOOP".data ∧
    receiveLine env0 st0 "noop\r\n".data = (st0, [Event.reply 500], Outcome.ok) ∧
    receiveLine env0 st0 "NOOP\r\n".data = (st0, [Event.reply 200], Outcome.ok) := by
  decide
